import Mathlib

/-!
# Verification of the quote-scraping pipeline (`app/parse.py`)

A shallow embedding of the scraper in `app/parse.py`.  The program
fetches paginated HTML listing pages from a fixed origin, parses quote
fragments with CSS selectors, follows "next" links, deduplicates author
names, fetches one bio page per distinct author and writes CSV files.

Modelling conventions:

* The network is a function `Net : String → FetchResult`: every
  `requests.get(url)` call is one lookup.  `FetchResult.failure` stands
  for a `requests.RequestException` (transport error or non-2xx status
  via `raise_for_status`).  Each fetching function also returns the list
  of URLs it requested, in request order, so fetch counts are explicit.
* A successfully fetched page is a `Soup`: the results of the CSS
  selectors the program applies (`.quote` fragments, the `li.next a`
  href, the `.author-details` block).  A selector that can miss is an
  `Option`; an anchor is identified with its `href` value.
* Python exceptions are the `PyExc` type and `Except PyExc` results.
  Each function's body (`*_except`) raises; its `try/except` wrapper
  catches exactly the exception classes named in the source
  (`requests.RequestException`, and additionally `AttributeError` in
  `get_author_bio`).  An uncaught exception is an `Except.error` that
  the wrapper passes through.
* `str.isalpha` is modelled over the characters `Char.isAlpha`
  recognises (the program's own example names are ASCII).
* The unbounded `while current_url:` loop is given explicit fuel; a
  `none` result means the fuel was insufficient, so any `some` result
  is a genuinely terminating run.
-/

deriving instance DecidableEq for Except

namespace ScrapeQuotes

/-- Python exception classes that `app/parse.py` can raise. -/
inductive PyExc where
  | requestException
  | typeError
  | keyError
  | attributeError
deriving DecidableEq, Repr

/-- `@dataclass Quote` from the source: text, author display name, tags. -/
structure Quote where
  text : String
  author : String
  tags : List String
deriving DecidableEq, Repr

/-- `@dataclass Author` from the source. -/
structure Author where
  name : String
  born_date : String
  born_location : String
  description : String
deriving DecidableEq, Repr

/-- One `.quote` fragment, as the selectors of `parse_single_quote` see it:
`textNode` is `select_one(".text").text` (if the node exists), `authorNode`
is `select_one(".author").text`, and `keywordsNode` is
`select_one(".keywords")` (outer `Option`: the element may be absent)
together with its `content` attribute (inner `Option`: the attribute may
be absent). -/
structure QuoteFragment where
  textNode : Option String
  authorNode : Option String
  keywordsNode : Option (Option String)
deriving DecidableEq, Repr

/-- The `.author-details` block, as `get_author_bio`'s selectors see it. -/
structure AuthorDetails where
  title : Option String
  bornDate : Option String
  bornLocation : Option String
  description : Option String
deriving DecidableEq, Repr

/-- A successfully fetched and soup-parsed page: the results of the three
selector families the program ever applies to a page. -/
structure Soup where
  quoteFragments : List QuoteFragment
  nextHref : Option String
  authorDetails : Option AuthorDetails
deriving DecidableEq, Repr

/-- Result of one `requests.get`: markup, or a `requests.RequestException`. -/
inductive FetchResult where
  | success (soup : Soup)
  | failure
deriving DecidableEq, Repr

/-- The network: one lookup per `requests.get(url)`. -/
def Net : Type := String → FetchResult

/-- `BASE_URL = "https://quotes.toscrape.com"`. -/
def BASE_URL : String := "https://quotes.toscrape.com"

/-- Split a character list at every character satisfying `p`, keeping the
(possibly empty) chunks between separators; `cur` holds the current chunk
reversed.  This is Python `str.split(sep)` for a one-character separator
once `p` tests equality with it. -/
def splitAtPred (p : Char → Bool) : List Char → List Char → List String
  | [], cur => [List.asString cur.reverse]
  | c :: rest, cur =>
    if p c then List.asString cur.reverse :: splitAtPred p rest []
    else splitAtPred p rest (c :: cur)

/-- Python `s.split(",")`. -/
def pySplitComma (s : String) : List String :=
  splitAtPred (fun c => c = ',') s.data []

/-- Python `s.split()` (no argument): split on whitespace runs, dropping
empty tokens. -/
def pySplitWs (s : String) : List String :=
  (splitAtPred (fun c => c.isWhitespace) s.data []).filter (fun t => t ≠ "")

/-- Python `s.isalpha()`: non-empty and every character alphabetic. -/
def pyIsAlpha (s : String) : Bool :=
  s ≠ "" && s.data.all (fun c => c.isAlpha)

/-- Python `s[:-1]`: drop the last character (empty stays empty). -/
def pyDropLast (s : String) : String :=
  List.asString s.data.dropLast

/-- Python `s[3:]`: drop the first three characters. -/
def pyDropThree (s : String) : String :=
  List.asString (s.data.drop 3)

/-- Python `s.rstrip("/")`: remove every trailing `/`. -/
def rstripSlash (s : String) : String :=
  List.asString ((s.data.reverse.dropWhile (fun c => c = '/')).reverse)

/-- `parse_single_quote`.  Evaluation order follows the source: first
`tags_content = quote_soup.select_one(".keywords")["content"]` (a missing
element makes the subscript raise `TypeError`, a present element without
the attribute raises `KeyError`), then the guarded split
(`tags_content.split(",") if tags_content else []` — Python truthiness of
a string is non-emptiness), then `select_one(".text").text` and
`select_one(".author").text` (a missing node raises `AttributeError`). -/
def parse_single_quote (quote_soup : QuoteFragment) : Except PyExc Quote :=
  match quote_soup.keywordsNode with
  | none => .error .typeError
  | some none => .error .keyError
  | some (some tags_content) =>
    let tags := if tags_content ≠ "" then pySplitComma tags_content else []
    match quote_soup.textNode with
    | none => .error .attributeError
    | some text =>
      match quote_soup.authorNode with
      | none => .error .attributeError
      | some author => .ok { text := text, author := author, tags := tags }

/-- Body of `get_author_bio`'s `try:` block: fetch, select the
`.author-details` block (`author_soup.select_one(...)` with
`author_soup = None` raises `AttributeError`), then the four fields
(`select_one(...).text` on a missing node raises `AttributeError`);
the born location is sliced `[3:]`. -/
def get_author_bio_except (net : Net) (author_page : String) : Except PyExc Author :=
  match net author_page with
  | .failure => .error .requestException
  | .success soup =>
    match soup.authorDetails with
    | none => .error .attributeError
    | some details =>
      match details.title with
      | none => .error .attributeError
      | some name =>
        match details.bornDate with
        | none => .error .attributeError
        | some born_date =>
          match details.bornLocation with
          | none => .error .attributeError
          | some born_location =>
            match details.description with
            | none => .error .attributeError
            | some description =>
              .ok { name := name, born_date := born_date,
                    born_location := pyDropThree born_location,
                    description := description }

/-- `get_author_bio`: the `except (requests.RequestException, AttributeError)`
clause catches exactly those two classes and returns the all-empty
`Author`; any other exception would propagate (first component stays
`.error`).  The second component is the list of URLs fetched. -/
def get_author_bio (net : Net) (author_page : String) :
    Except PyExc Author × List String :=
  match get_author_bio_except net author_page with
  | .ok a => (.ok a, [author_page])
  | .error .requestException =>
    (.ok { name := "", born_date := "", born_location := "", description := "" },
     [author_page])
  | .error .attributeError =>
    (.ok { name := "", born_date := "", born_location := "", description := "" },
     [author_page])
  | .error e => (.error e, [author_page])

/-- The list comprehension
`[parse_single_quote(q) for q in soup.select(".quote")]`: stops at the
first fragment whose parse raises, propagating that exception. -/
def parse_quote_list : List QuoteFragment → Except PyExc (List Quote)
  | [] => .ok []
  | fragment :: rest =>
    match parse_single_quote fragment with
    | .error e => .error e
    | .ok q =>
      match parse_quote_list rest with
      | .error e => .error e
      | .ok qs => .ok (q :: qs)

/-- Body of `get_single_page_quotes`'s `try:` block. -/
def get_single_page_quotes_except (net : Net) (page_url : String) :
    Except PyExc (List Quote) :=
  match net page_url with
  | .failure => .error .requestException
  | .success soup => parse_quote_list soup.quoteFragments

/-- `get_single_page_quotes`: the `except requests.RequestException`
clause catches only fetch failures (logging and returning `[]`); a parse
exception from a malformed fragment is NOT caught and propagates. -/
def get_single_page_quotes (net : Net) (page_url : String) :
    Except PyExc (List Quote) × List String :=
  match get_single_page_quotes_except net page_url with
  | .error .requestException => (.ok [], [page_url])
  | .error e => (.error e, [page_url])
  | .ok quotes => (.ok quotes, [page_url])

/-- `get_next_page`: fetch the current page; a `requests.RequestException`
is caught and yields `None`.  If a `li.next a` anchor is present, return
`f"{BASE_URL.rstrip('/')}{next_page_url}"`, else `None`. -/
def get_next_page (net : Net) (current_url : String) :
    Option String × List String :=
  match net current_url with
  | .failure => (none, [current_url])
  | .success soup =>
    match soup.nextHref with
    | some href => (some (rstripSlash BASE_URL ++ href), [current_url])
    | none => (none, [current_url])

/-- The `while current_url:` loop of `get_all_quotes`, with explicit fuel.
Python truthiness: the loop stops when `current_url` is `None` or the
empty string.  Each iteration appends the page's quotes and re-fetches
the same URL through `get_next_page`.  A `none` result means the fuel ran
out before the loop terminated. -/
def get_all_quotes_from (net : Net) :
    Nat → Option String → Option (Except PyExc (List Quote) × List String)
  | _, none => some (.ok [], [])
  | 0, some _ => none
  | fuel + 1, some current_url =>
    if current_url = "" then some (.ok [], [])
    else
      match get_single_page_quotes net current_url with
      | (.error e, log1) => some (.error e, log1)
      | (.ok quotes, log1) =>
        match get_next_page net current_url with
        | (next, log2) =>
          match get_all_quotes_from net fuel next with
          | none => none
          | some (.error e, log3) => some (.error e, log1 ++ log2 ++ log3)
          | some (.ok rest, log3) => some (.ok (quotes ++ rest), log1 ++ log2 ++ log3)

/-- `get_all_quotes()`: run the pagination loop from `BASE_URL`. -/
def get_all_quotes (net : Net) (fuel : Nat) :
    Option (Except PyExc (List Quote) × List String) :=
  get_all_quotes_from net fuel (some BASE_URL)

/-- The slug heuristic inside `get_authors_bio`:
`"-".join(name if name.isalpha() else name[:-1] for name in author_name.split())`.
Python `str.split()` splits on whitespace runs and drops empty tokens;
`str.isalpha()` is true iff the string is non-empty and all-alphabetic;
`name[:-1]` drops the last character. -/
def fixed_name (author_name : String) : String :=
  String.intercalate "-"
    ((pySplitWs author_name).map
      (fun name => if pyIsAlpha name then name else pyDropLast name))

/-- The author-page URL `f"{BASE_URL}/author/{fixed_name}/"`. -/
def authorUrl (author_name : String) : String :=
  BASE_URL ++ "/author/" ++ fixed_name author_name ++ "/"

/-- The dedup loop of `get_authors_bio`: walk the quotes keeping a dict
from author display name to bio (a Python dict preserves insertion
order, modelled as an append-at-end association list); fetch a bio only
for names not yet present. -/
def get_authors_bio_from (net : Net) :
    List Quote → List (String × Author) →
      Except PyExc (List (String × Author)) × List String
  | [], authors_bio => (.ok authors_bio, [])
  | quote :: rest, authors_bio =>
    if authors_bio.any (fun p => p.1 = quote.author) then
      get_authors_bio_from net rest authors_bio
    else
      match get_author_bio net (authorUrl quote.author) with
      | (.error e, log1) => (.error e, log1)
      | (.ok bio, log1) =>
        match get_authors_bio_from net rest (authors_bio ++ [(quote.author, bio)]) with
        | (result, log2) => (result, log1 ++ log2)

/-- `get_authors_bio()`: crawl all quotes (a fresh full crawl), then
dedup authors and fetch one bio per new name; return
`list(authors_bio.values())`. -/
def get_authors_bio (net : Net) (fuel : Nat) :
    Option (Except PyExc (List Author) × List String) :=
  match get_all_quotes net fuel with
  | none => none
  | some (.error e, log) => some (.error e, log)
  | some (.ok quotes, log) =>
    match get_authors_bio_from net quotes [] with
    | (.error e, log2) => some (.error e, log ++ log2)
    | (.ok pairs, log2) => some (.ok (pairs.map Prod.snd), log ++ log2)

/-- The `__main__` run: `main("quotes.csv")` (which calls
`get_all_quotes` and writes the quote rows) followed by
`write_authors_bio_to_file("authors.csv")` (which calls
`get_authors_bio`, itself crawling all quotes again).  The CSV bodies
are modelled by the record lists written; the combined fetch log is the
concatenation of both phases' logs. -/
def program_run (net : Net) (fuel : Nat) :
    Option (Except PyExc (List Quote × List Author) × List String) :=
  match get_all_quotes net fuel with
  | none => none
  | some (.error e, log1) => some (.error e, log1)
  | some (.ok quotes, log1) =>
    match get_authors_bio net fuel with
    | none => none
    | some (.error e, log2) => some (.error e, log1 ++ log2)
    | some (.ok authors, log2) => some (.ok (quotes, authors), log1 ++ log2)

/-! ## Concrete sites used as test inputs -/

/-- A well-formed quote fragment with all three selector targets present. -/
def qf (text author keywords : String) : QuoteFragment :=
  { textNode := some text, authorNode := some author,
    keywordsNode := some (some keywords) }

/-- A listing-page soup (no `.author-details` block on listing pages). -/
def listingSoup (frags : List QuoteFragment) (next : Option String) : Soup :=
  { quoteFragments := frags, nextHref := next, authorDetails := none }

/-- An author-bio-page soup (no quote fragments, no next link). -/
def authorSoup (title born_date born_location description : String) : Soup :=
  { quoteFragments := [], nextHref := none,
    authorDetails := some { title := some title, bornDate := some born_date,
                            bornLocation := some born_location,
                            description := some description } }

/-- Page 1 of the three-page test site: two quotes, next link to page 2. -/
def page1 : Soup :=
  listingSoup [qf "q1" "Jane Austen" "love,life", qf "q2" "Jane Austen" ""]
    (some "/page/2/")

/-- Page 2: two quotes, next link to page 3. -/
def page2 : Soup :=
  listingSoup [qf "q3" "Mark Twain" "humor", qf "q4" "Jane Austen" "life"]
    (some "/page/3/")

/-- Page 3: one quote, no next link. -/
def page3 : Soup :=
  listingSoup [qf "q5" "Mark Twain" ""] none

/-- A three-page site (2, 2, 1 quotes; no next link on page 3) that also
serves the two authors' bio pages; every other URL fails. -/
def net3 : Net := fun url =>
  if url = "https://quotes.toscrape.com" then .success page1
  else if url = "https://quotes.toscrape.com/page/2/" then .success page2
  else if url = "https://quotes.toscrape.com/page/3/" then .success page3
  else if url = "https://quotes.toscrape.com/author/Jane-Austen/" then
    .success (authorSoup "Jane Austen" "December 16, 1775" "In Steventon Rectory, Hampshire" "English novelist")
  else if url = "https://quotes.toscrape.com/author/Mark-Twain/" then
    .success (authorSoup "Mark Twain" "November 30, 1835" "In Florida, Missouri" "American writer")
  else .failure

/-- A site whose first page is fine but whose second page (and everything
else) fails to fetch, including on the re-request by `get_next_page`. -/
def net9 : Net := fun url =>
  if url = "https://quotes.toscrape.com" then .success page1
  else .failure

/-- A listing page whose single quote fragment is malformed: the
`.keywords` element is missing, so `select_one(".keywords")["content"]`
raises `TypeError`. -/
def badPage : Soup :=
  listingSoup
    [{ textNode := some "q1", authorNode := some "A", keywordsNode := none }]
    none

/-- A one-page site serving only the malformed page. -/
def netBad : Net := fun url =>
  if url = "https://quotes.toscrape.com" then .success badPage
  else .failure

/-- A one-page site whose next anchor's href lacks a leading slash. -/
def netNoSlash : Net := fun url =>
  if url = "https://quotes.toscrape.com" then
    .success (listingSoup [] (some "page/2/"))
  else .failure

/-! ## Derived notions used to state the claims -/

/-- Does a fragment parse without raising? -/
def parseOk (fragment : QuoteFragment) : Bool :=
  match parse_single_quote fragment with
  | .ok _ => true
  | .error _ => false

/-- The quotes of a fragment list, in document order (only meaningful
when every fragment parses). -/
def parsedQuotes (frags : List QuoteFragment) : List Quote :=
  frags.filterMap (fun f => (parse_single_quote f).toOption)

/-- `SiteChain net url pages`: starting at `url`, the network serves the
listing pages `pages` (as URL/soup pairs) linked in sequence by their
next hrefs, the last one having no next link.  This is the shape of a
finite paginated site as the crawler walks it. -/
inductive SiteChain (net : Net) : String → List (String × Soup) → Prop where
  | last : ∀ url soup, url ≠ "" → net url = .success soup →
      soup.nextHref = none → SiteChain net url [(url, soup)]
  | step : ∀ url soup href rest, url ≠ "" → net url = .success soup →
      soup.nextHref = some href →
      SiteChain net (rstripSlash BASE_URL ++ href) rest →
      SiteChain net url ((url, soup) :: rest)

/-- First occurrence of each element, in first-seen order, skipping
elements already in `seen` (spec-side description of dict-insertion
dedup). -/
def first_seen_from (seen : List String) : List String → List String
  | [] => []
  | x :: xs =>
    if x ∈ seen then first_seen_from seen xs
    else x :: first_seen_from (seen ++ [x]) xs

/-- The slug rule as the spec words it: hyphen-join of the
whitespace-separated tokens, each kept unchanged if it contains only
alphabetic characters and otherwise with its last character dropped. -/
def slug_spec (author_name : String) : String :=
  String.intercalate "-"
    ((pySplitWs author_name).map
      (fun t => if t.data.all (fun c => c.isAlpha) then t else pyDropLast t))

/-- The join the claim describes for next-page URLs: origin and href
glued with exactly one separating slash, whatever trailing slashes the
origin has and leading slashes the href has. -/
def joinOneSlash (origin href : String) : String :=
  rstripSlash origin ++ "/" ++ List.asString (href.data.dropWhile (fun c => c = '/'))

/-- The three-page site as a chain of URL/soup pairs. -/
def pages3 : List (String × Soup) :=
  [("https://quotes.toscrape.com", page1),
   ("https://quotes.toscrape.com/page/2/", page2),
   ("https://quotes.toscrape.com/page/3/", page3)]



theorem parse_single_quote_error_cases (f : QuoteFragment) (e : PyExc)
    (h : parse_single_quote f = .error e) :
    e = .typeError ∨ e = .keyError ∨ e = .attributeError := by
  rcases f with ⟨t, a, k⟩
  rcases k with _ | k
  · simp [parse_single_quote] at h
    simp [h]
  · rcases k with _ | s
    · simp [parse_single_quote] at h
      simp [h]
    · rcases t with _ | t
      · simp [parse_single_quote] at h
        simp [h]
      · rcases a with _ | a
        · simp [parse_single_quote] at h
          simp [h]
        · simp [parse_single_quote] at h

theorem parse_quote_list_of_all_ok (frags : List QuoteFragment)
    (h : frags.all parseOk = true) :
    parse_quote_list frags = .ok (parsedQuotes frags) := by
  induction frags with
  | nil => simp [parse_quote_list, parsedQuotes]
  | cons f rest ih =>
    simp only [List.all_cons, Bool.and_eq_true] at h
    obtain ⟨hf, hrest⟩ := h
    unfold parseOk at hf
    rcases hq : parse_single_quote f with e | q
    · rw [hq] at hf; simp at hf
    · simp [parse_quote_list, hq, ih hrest, parsedQuotes, List.filterMap_cons, Except.toOption]

theorem parsedQuotes_length (frags : List QuoteFragment)
    (h : frags.all parseOk = true) :
    (parsedQuotes frags).length = frags.length := by
  induction frags with
  | nil => simp [parsedQuotes]
  | cons f rest ih =>
    simp only [List.all_cons, Bool.and_eq_true] at h
    obtain ⟨hf, hrest⟩ := h
    unfold parseOk at hf
    rcases hq : parse_single_quote f with e | q
    · rw [hq] at hf; simp at hf
    · show (parsedQuotes (f :: rest)).length = rest.length + 1
      unfold parsedQuotes
      rw [List.filterMap_cons, hq]
      show (q :: List.filterMap (fun f => (parse_single_quote f).toOption) rest).length = rest.length + 1
      rw [List.length_cons]
      have hl := ih hrest
      unfold parsedQuotes at hl
      omega


theorem parse_quote_list_error_cases (frags : List QuoteFragment) (e : PyExc)
    (h : parse_quote_list frags = .error e) :
    e = .typeError ∨ e = .keyError ∨ e = .attributeError := by
  induction frags with
  | nil => simp [parse_quote_list] at h
  | cons f rest ih =>
    unfold parse_quote_list at h
    rcases hq : parse_single_quote f with e1 | q
    · rw [hq] at h
      simp at h
      subst h
      exact parse_single_quote_error_cases f e1 hq
    · rw [hq] at h
      rcases hr : parse_quote_list rest with e2 | qs
      · rw [hr] at h
        simp at h
        subst h
        exact ih hr
      · rw [hr] at h
        simp at h

theorem get_single_page_quotes_except_success (net : Net) (url : String) (soup : Soup)
    (hnet : net url = .success soup) :
    get_single_page_quotes_except net url = parse_quote_list soup.quoteFragments := by
  unfold get_single_page_quotes_except
  rw [hnet]

theorem get_single_page_quotes_success (net : Net) (url : String) (soup : Soup)
    (hnet : net url = .success soup)
    (hok : soup.quoteFragments.all parseOk = true) :
    get_single_page_quotes net url =
      (.ok (parsedQuotes soup.quoteFragments), [url]) := by
  have h1 : get_single_page_quotes_except net url = .ok (parsedQuotes soup.quoteFragments) := by
    rw [get_single_page_quotes_except_success net url soup hnet]
    exact parse_quote_list_of_all_ok _ hok
  unfold get_single_page_quotes
  rw [h1]

theorem get_single_page_quotes_fetch_failure (net : Net) (url : String)
    (hnet : net url = .failure) :
    get_single_page_quotes net url = (.ok [], [url]) := by
  have h1 : get_single_page_quotes_except net url = .error .requestException := by
    unfold get_single_page_quotes_except
    rw [hnet]
  unfold get_single_page_quotes
  rw [h1]

theorem get_next_page_some (net : Net) (url : String) (soup : Soup) (href : String)
    (hnet : net url = .success soup) (hnext : soup.nextHref = some href) :
    get_next_page net url = (some (rstripSlash BASE_URL ++ href), [url]) := by
  unfold get_next_page
  rw [hnet]
  show (match soup.nextHref with
        | some href => (some (rstripSlash BASE_URL ++ href), [url])
        | none => (none, [url])) = _
  rw [hnext]

theorem get_next_page_none (net : Net) (url : String) (soup : Soup)
    (hnet : net url = .success soup) (hnext : soup.nextHref = none) :
    get_next_page net url = (none, [url]) := by
  unfold get_next_page
  rw [hnet]
  show (match soup.nextHref with
        | some href => (some (rstripSlash BASE_URL ++ href), [url])
        | none => (none, [url])) = _
  rw [hnext]

theorem get_next_page_failure (net : Net) (url : String)
    (hnet : net url = .failure) :
    get_next_page net url = (none, [url]) := by
  unfold get_next_page
  rw [hnet]

theorem crawl_chain {net : Net} {url : String} {pages : List (String × Soup)}
    (hchain : SiteChain net url pages)
    (hok : pages.all (fun p => p.2.quoteFragments.all parseOk) = true) :
    ∀ fuel, pages.length ≤ fuel →
      get_all_quotes_from net fuel (some url) =
        some (.ok ((pages.map (fun p => parsedQuotes p.2.quoteFragments)).flatten),
              (pages.map (fun p => [p.1, p.1])).flatten) := by
  induction hchain with
  | last url soup hne hnet hnext =>
    intro fuel hfuel
    match fuel, hfuel with
    | fuel + 1, _ =>
      simp only [List.all_cons, List.all_nil, Bool.and_true] at hok
      rw [get_all_quotes_from, if_neg hne,
          get_single_page_quotes_success net url soup hnet hok,
          get_next_page_none net url soup hnet hnext]
      simp [get_all_quotes_from]
  | step url soup href rest hne hnet hnext _ ih =>
    intro fuel hfuel
    match fuel, hfuel with
    | fuel + 1, hfuel =>
      simp only [List.all_cons, Bool.and_eq_true] at hok
      obtain ⟨hok1, hokrest⟩ := hok
      have hrl : rest.length ≤ fuel := by
        simp only [List.length_cons] at hfuel
        omega
      rw [get_all_quotes_from, if_neg hne,
          get_single_page_quotes_success net url soup hnet hok1,
          get_next_page_some net url soup href hnet hnext]
      simp [ih hokrest fuel hrl]

theorem get_author_bio_except_error_cases (net : Net) (url : String) (e : PyExc)
    (h : get_author_bio_except net url = .error e) :
    e = .requestException ∨ e = .attributeError := by
  unfold get_author_bio_except at h
  rcases hn : net url with ⟨qfs, nh, ad⟩ | _
  · rw [hn] at h
    rcases ad with _ | ⟨t, bd, bl, d⟩
    · simp at h
      simp [h]
    · rcases t with _ | t
      · simp at h
        simp [h]
      · rcases bd with _ | bd
        · simp at h
          simp [h]
        · rcases bl with _ | bl
          · simp at h
            simp [h]
          · rcases d with _ | d
            · simp at h
              simp [h]
            · simp at h
  · rw [hn] at h
    simp at h
    simp [h]

theorem get_author_bio_ok (net : Net) (url : String) :
    ∃ a, get_author_bio net url = (.ok a, [url]) := by
  unfold get_author_bio
  rcases hb : get_author_bio_except net url with e | a
  · rcases get_author_bio_except_error_cases net url e hb with he | he <;>
      subst he <;> exact ⟨_, rfl⟩
  · exact ⟨a, rfl⟩

theorem get_author_bio_of_error (net : Net) (url : String) (e : PyExc)
    (h : get_author_bio_except net url = .error e) :
    get_author_bio net url =
      (.ok { name := "", born_date := "", born_location := "", description := "" },
       [url]) := by
  unfold get_author_bio
  rw [h]
  rcases get_author_bio_except_error_cases net url e h with he | he <;> subst he <;> rfl

theorem mem_first_seen_from (l : List String) :
    ∀ (seen : List String) (x : String),
      x ∈ first_seen_from seen l ↔ x ∈ l ∧ x ∉ seen := by
  induction l with
  | nil => intro seen x; simp [first_seen_from]
  | cons a l ih =>
    intro seen x
    unfold first_seen_from
    by_cases ha : a ∈ seen
    · rw [if_pos ha]
      simp only [ih, List.mem_cons]
      constructor
      · rintro ⟨hx, hs⟩
        exact ⟨Or.inr hx, hs⟩
      · rintro ⟨hxa | hxl, hs⟩
        · subst hxa
          exact absurd ha hs
        · exact ⟨hxl, hs⟩
    · rw [if_neg ha]
      simp only [List.mem_cons, ih, List.mem_append, List.mem_singleton]
      by_cases hxa : x = a
      · subst hxa
        tauto
      · tauto

theorem nodup_first_seen_from (l : List String) :
    ∀ seen : List String, (first_seen_from seen l).Nodup := by
  induction l with
  | nil => intro seen; simp [first_seen_from]
  | cons a l ih =>
    intro seen
    unfold first_seen_from
    by_cases ha : a ∈ seen
    · rw [if_pos ha]
      exact ih seen
    · rw [if_neg ha]
      refine List.nodup_cons.mpr ⟨?_, ih (seen ++ [a])⟩
      intro hc
      have hm := (mem_first_seen_from l (seen ++ [a]) a).mp hc
      exact hm.2 (List.mem_append.mpr (Or.inr (List.mem_singleton.mpr rfl)))

theorem bio_from_spec (net : Net) :
    ∀ (qs : List Quote) (acc : List (String × Author)),
      ∃ pairs log,
        get_authors_bio_from net qs acc = (.ok pairs, log) ∧
        pairs.map Prod.fst =
          acc.map Prod.fst ++
            first_seen_from (acc.map Prod.fst) (qs.map Quote.author) ∧
        log.length =
          (first_seen_from (acc.map Prod.fst) (qs.map Quote.author)).length := by
  intro qs
  induction qs with
  | nil =>
    intro acc
    exact ⟨acc, [], rfl, by simp [first_seen_from], by simp [first_seen_from]⟩
  | cons q rest ih =>
    intro acc
    unfold get_authors_bio_from
    have hmem : (acc.any (fun p => p.1 = q.author)) = true ↔
        q.author ∈ acc.map Prod.fst := by
      simp [List.any_eq_true, List.mem_map]
    by_cases hseen : q.author ∈ acc.map Prod.fst
    · rw [if_pos (hmem.mpr hseen)]
      obtain ⟨pairs, log, heq, hkeys, hlen⟩ := ih acc
      refine ⟨pairs, log, heq, ?_, ?_⟩
      · rw [hkeys]
        simp only [List.map_cons]
        rw [first_seen_from, if_pos hseen]
      · rw [hlen]
        simp only [List.map_cons]
        rw [first_seen_from, if_pos hseen]
    · rw [if_neg (fun hc => hseen (hmem.mp hc))]
      obtain ⟨bio, hbio⟩ := get_author_bio_ok net (authorUrl q.author)
      obtain ⟨pairs, log, heq, hkeys, hlen⟩ := ih (acc ++ [(q.author, bio)])
      refine ⟨pairs, [authorUrl q.author] ++ log, ?_, ?_, ?_⟩
      · simp only [hbio, heq]
      · rw [hkeys]
        simp only [List.map_cons]
        rw [first_seen_from, if_neg hseen]
        simp [List.map_append]
      · simp only [List.map_cons]
        rw [first_seen_from, if_neg hseen]
        simp only [List.map_append, List.map_cons, List.map_nil] at hlen
        simp only [List.singleton_append, List.length_cons]
        omega

theorem rstripSlash_append_slash (origin : String) :
    rstripSlash (origin ++ "/") = rstripSlash origin := by
  unfold rstripSlash
  rw [String.data_append]
  simp [List.reverse_append]

theorem dropWhile_slash_cons (rest : List Char) (h : rest.head? ≠ some '/') :
    List.dropWhile (fun c => c = '/') ('/' :: rest) = rest := by
  simp only [List.dropWhile_cons, decide_True, if_true]
  cases rest with
  | nil => rfl
  | cons c t =>
    have hc : ¬(c = '/') := by
      intro hc
      subst hc
      exact h rfl
    simp [List.dropWhile_cons, hc]

theorem joinOneSlash_single (origin : String) (rest : List Char)
    (h : rest.head? ≠ some '/') :
    rstripSlash origin ++ List.asString ('/' :: rest) =
      joinOneSlash origin (List.asString ('/' :: rest)) := by
  unfold joinOneSlash
  rw [String.append_assoc]
  congr 1
  show List.asString ('/' :: rest) =
    "/" ++ List.asString (List.dropWhile (fun c => c = '/') ('/' :: rest))
  rw [dropWhile_slash_cons rest h]
  exact rfl

theorem length_flatten_pairs (pages : List (String × Soup)) :
    ((pages.map (fun p => [p.1, p.1])).flatten).length = 2 * pages.length := by
  induction pages with
  | nil => simp
  | cons p rest ih =>
    simp only [List.map_cons, List.flatten_cons, List.length_append, ih,
      List.length_cons, List.length_nil]
    omega

theorem chain3 : SiteChain net3 "https://quotes.toscrape.com" pages3 :=
  SiteChain.step _ page1 "/page/2/" _ (by decide) (by decide) (by decide)
    (SiteChain.step _ page2 "/page/3/" _ (by decide) (by decide) (by decide)
      (SiteChain.last _ page3 (by decide) (by decide) (by decide)))

/-- C1: a successfully fetched listing page with N well-formed quote
fragments parses to exactly N quotes in document order; the walker's
accumulation over a finite chain of pages is the concatenation of the
per-page quote lists in page order; on the concrete 3-page site with
2, 2 and 1 quotes, the crawl yields exactly those 5 quotes in
page-then-in-page order. -/
theorem c1_parse_counts_and_order :
    (∀ (net : Net) (url : String) (soup : Soup),
        net url = .success soup →
        soup.quoteFragments.all parseOk = true →
        get_single_page_quotes net url =
          (.ok (parsedQuotes soup.quoteFragments), [url]) ∧
        (parsedQuotes soup.quoteFragments).length =
          soup.quoteFragments.length) ∧
    (∀ (net : Net) (url : String) (pages : List (String × Soup)) (fuel : Nat),
        SiteChain net url pages →
        pages.all (fun p => p.2.quoteFragments.all parseOk) = true →
        pages.length ≤ fuel →
        get_all_quotes_from net fuel (some url) =
          some (.ok ((pages.map (fun p => parsedQuotes p.2.quoteFragments)).flatten),
                (pages.map (fun p => [p.1, p.1])).flatten)) ∧
    get_all_quotes net3 10 =
      some (.ok [⟨"q1", "Jane Austen", ["love", "life"]⟩,
                 ⟨"q2", "Jane Austen", []⟩,
                 ⟨"q3", "Mark Twain", ["humor"]⟩,
                 ⟨"q4", "Jane Austen", ["life"]⟩,
                 ⟨"q5", "Mark Twain", []⟩],
            ["https://quotes.toscrape.com", "https://quotes.toscrape.com",
             "https://quotes.toscrape.com/page/2/",
             "https://quotes.toscrape.com/page/2/",
             "https://quotes.toscrape.com/page/3/",
             "https://quotes.toscrape.com/page/3/"]) := by
  refine ⟨?_, ?_, by decide⟩
  · intro net url soup hnet hok
    exact ⟨get_single_page_quotes_success net url soup hnet hok,
           parsedQuotes_length _ hok⟩
  · intro net url pages fuel hchain hok hfuel
    exact crawl_chain hchain hok fuel hfuel

theorem c1_parse_counts_and_order_witness :
    (get_single_page_quotes net3 "https://quotes.toscrape.com" =
      (.ok (parsedQuotes page1.quoteFragments), ["https://quotes.toscrape.com"]) ∧
     (parsedQuotes page1.quoteFragments).length = page1.quoteFragments.length) ∧
    get_all_quotes_from net3 10 (some "https://quotes.toscrape.com") =
      some (.ok ((pages3.map (fun p => parsedQuotes p.2.quoteFragments)).flatten),
            (pages3.map (fun p => [p.1, p.1])).flatten) :=
  ⟨c1_parse_counts_and_order.1 net3 "https://quotes.toscrape.com" page1
      (by decide) (by decide),
   c1_parse_counts_and_order.2.1 net3 "https://quotes.toscrape.com" pages3 10
      chain3 (by decide) (by decide)⟩

/-- C2 counterexample: on the 3-page site the crawl issues 6 listing-page
fetches, not 3 — each listing URL is requested twice per loop iteration
(once by `get_single_page_quotes`, once by `get_next_page`). -/
theorem c2_counterexample_six_fetches :
    get_all_quotes net3 10 =
      some (.ok [⟨"q1", "Jane Austen", ["love", "life"]⟩,
                 ⟨"q2", "Jane Austen", []⟩,
                 ⟨"q3", "Mark Twain", ["humor"]⟩,
                 ⟨"q4", "Jane Austen", ["life"]⟩,
                 ⟨"q5", "Mark Twain", []⟩],
            ["https://quotes.toscrape.com", "https://quotes.toscrape.com",
             "https://quotes.toscrape.com/page/2/",
             "https://quotes.toscrape.com/page/2/",
             "https://quotes.toscrape.com/page/3/",
             "https://quotes.toscrape.com/page/3/"]) ∧
    (["https://quotes.toscrape.com", "https://quotes.toscrape.com",
      "https://quotes.toscrape.com/page/2/",
      "https://quotes.toscrape.com/page/2/",
      "https://quotes.toscrape.com/page/3/",
      "https://quotes.toscrape.com/page/3/"] : List String).length ≠ 3 :=
  ⟨by decide, by decide⟩

/-- C2 amended: over a finite chain of listing pages the walker issues
exactly 2 fetches per listing page (2·k for a k-page site, hence 6 for
the 3-page site), because each loop iteration fetches the same URL once
for the quotes and once more for the next link. -/
theorem c2_amended_two_fetches_per_page :
    (∀ (net : Net) (url : String) (pages : List (String × Soup)) (fuel : Nat),
        SiteChain net url pages →
        pages.all (fun p => p.2.quoteFragments.all parseOk) = true →
        pages.length ≤ fuel →
        ∃ quotes,
          get_all_quotes_from net fuel (some url) =
            some (.ok quotes, (pages.map (fun p => [p.1, p.1])).flatten) ∧
          ((pages.map (fun p => [p.1, p.1])).flatten).length = 2 * pages.length) ∧
    (∃ log, get_all_quotes net3 10 =
        some (.ok [⟨"q1", "Jane Austen", ["love", "life"]⟩,
                   ⟨"q2", "Jane Austen", []⟩,
                   ⟨"q3", "Mark Twain", ["humor"]⟩,
                   ⟨"q4", "Jane Austen", ["life"]⟩,
                   ⟨"q5", "Mark Twain", []⟩], log) ∧
      log.length = 6) := by
  constructor
  · intro net url pages fuel hchain hok hfuel
    exact ⟨_, crawl_chain hchain hok fuel hfuel, length_flatten_pairs pages⟩
  · exact ⟨["https://quotes.toscrape.com", "https://quotes.toscrape.com",
             "https://quotes.toscrape.com/page/2/",
             "https://quotes.toscrape.com/page/2/",
             "https://quotes.toscrape.com/page/3/",
             "https://quotes.toscrape.com/page/3/"], by decide, by decide⟩

theorem c2_amended_two_fetches_per_page_witness :
    ∃ quotes,
      get_all_quotes_from net3 10 (some "https://quotes.toscrape.com") =
        some (.ok quotes, (pages3.map (fun p => [p.1, p.1])).flatten) ∧
      ((pages3.map (fun p => [p.1, p.1])).flatten).length = 2 * pages3.length :=
  c2_amended_two_fetches_per_page.1 net3 "https://quotes.toscrape.com" pages3 10
    chain3 (by decide) (by decide)

/-- C3: the author deduplication loop yields exactly one record per
distinct author display name, in first-seen order, and issues exactly
one bio fetch per distinct name; concretely, quotes with authors
["Jane Austen", "Jane Austen", "Mark Twain"] yield 2 author records,
Jane Austen then Mark Twain, with 2 bio fetches. -/
theorem c3_author_dedup :
    (∀ (net : Net) (quotes : List Quote),
        ∃ pairs log,
          get_authors_bio_from net quotes [] = (.ok pairs, log) ∧
          pairs.map Prod.fst = first_seen_from [] (quotes.map Quote.author) ∧
          log.length = (first_seen_from [] (quotes.map Quote.author)).length) ∧
    (∀ names : List String,
        (first_seen_from [] names).Nodup ∧
        ∀ x, x ∈ first_seen_from [] names ↔ x ∈ names) ∧
    first_seen_from [] ["Jane Austen", "Jane Austen", "Mark Twain"] =
      ["Jane Austen", "Mark Twain"] ∧
    get_authors_bio_from net3
        [⟨"qa", "Jane Austen", []⟩, ⟨"qb", "Jane Austen", []⟩,
         ⟨"qc", "Mark Twain", []⟩] [] =
      (.ok [("Jane Austen",
             ⟨"Jane Austen", "December 16, 1775",
              "Steventon Rectory, Hampshire", "English novelist"⟩),
            ("Mark Twain",
             ⟨"Mark Twain", "November 30, 1835", "Florida, Missouri",
              "American writer"⟩)],
       ["https://quotes.toscrape.com/author/Jane-Austen/",
        "https://quotes.toscrape.com/author/Mark-Twain/"]) := by
  refine ⟨?_, ?_, by decide, by decide⟩
  · intro net quotes
    have h := bio_from_spec net quotes []
    simpa using h
  · intro names
    exact ⟨nodup_first_seen_from names [],
           fun x => by simpa using mem_first_seen_from names [] x⟩

/-- C4 counterexample: on a successfully fetched page whose next anchor's
href lacks a leading slash, `get_next_page` concatenates with NO
separating slash, so the result differs from the one-slash join the
claim promises. -/
theorem c4_counterexample_no_slash :
    get_next_page netNoSlash "https://quotes.toscrape.com" =
      (some "https://quotes.toscrape.compage/2/", ["https://quotes.toscrape.com"]) ∧
    ("https://quotes.toscrape.compage/2/" : String) ≠ joinOneSlash BASE_URL "page/2/" ∧
    joinOneSlash BASE_URL "page/2/" = "https://quotes.toscrape.com/page/2/" :=
  ⟨by decide, by decide, by decide⟩

/-- C4 amended: on a successfully fetched page the lookup returns `None`
exactly when no next anchor is present; otherwise it returns
`BASE_URL.rstrip("/") + href` verbatim.  This has exactly one separating
slash whenever the href begins with a single leading slash — and
trailing slashes on the origin are always stripped — but an href
without a leading slash is concatenated with no separator at all. -/
theorem c4_amended_next_link :
    (∀ (net : Net) (url : String) (soup : Soup),
        net url = .success soup →
        ((get_next_page net url).1 = none ↔ soup.nextHref = none) ∧
        (∀ href, soup.nextHref = some href →
          get_next_page net url = (some (rstripSlash BASE_URL ++ href), [url]))) ∧
    (∀ (origin : String) (rest : List Char), rest.head? ≠ some '/' →
        rstripSlash origin ++ List.asString ('/' :: rest) =
          joinOneSlash origin (List.asString ('/' :: rest))) ∧
    (∀ origin : String, rstripSlash (origin ++ "/") = rstripSlash origin) := by
  refine ⟨?_, joinOneSlash_single, rstripSlash_append_slash⟩
  intro net url soup hnet
  constructor
  · rcases hnext : soup.nextHref with _ | href
    · rw [get_next_page_none net url soup hnet hnext]
    · rw [get_next_page_some net url soup href hnet hnext]
      simp
  · intro href hnext
    exact get_next_page_some net url soup href hnet hnext

theorem c4_amended_next_link_witness :
    ((get_next_page net3 "https://quotes.toscrape.com/page/3/").1 = none ↔
      page3.nextHref = none) ∧
    get_next_page net3 "https://quotes.toscrape.com" =
      (some (rstripSlash BASE_URL ++ "/page/2/"), ["https://quotes.toscrape.com"]) ∧
    rstripSlash "https://quotes.toscrape.com/" ++ List.asString ('/' :: "page/2/".data) =
      joinOneSlash "https://quotes.toscrape.com/" (List.asString ('/' :: "page/2/".data)) :=
  ⟨(c4_amended_next_link.1 net3 "https://quotes.toscrape.com/page/3/" page3
      (by decide)).1,
   (c4_amended_next_link.1 net3 "https://quotes.toscrape.com" page1
      (by decide)).2 "/page/2/" (by decide),
   c4_amended_next_link.2.1 "https://quotes.toscrape.com/" "page/2/".data
      (by decide)⟩

/-- C5: the slug equals the hyphen-join of the whitespace-separated
tokens, each kept unchanged when all-alphabetic and otherwise with its
last character dropped; "Jane Austen" ↦ "Jane-Austen" and the
punctuated token "O'Brien" loses its trailing character. -/
theorem c5_slug_heuristic :
    (∀ name : String, fixed_name name = slug_spec name) ∧
    fixed_name "Jane Austen" = "Jane-Austen" ∧
    fixed_name "O'Brien" = "O'Brie" := by
  refine ⟨?_, by decide, by decide⟩
  intro name
  unfold fixed_name slug_spec
  congr 1
  apply List.map_congr_left
  intro t ht
  have htne : t ≠ "" := by
    unfold pySplitWs at ht
    simpa using (List.mem_filter.mp ht).2
  simp [pyIsAlpha, htne]

/-- C6: tag parsing splits the `content` attribute on commas; an empty
attribute yields the empty tag list (not `[""]`), and `"a,b,c"` yields
`["a", "b", "c"]`. -/
theorem c6_tag_split :
    (∀ text author : String,
        parse_single_quote (qf text author "") = .ok ⟨text, author, []⟩) ∧
    (∀ (text author s : String), s ≠ "" →
        parse_single_quote (qf text author s) =
          .ok ⟨text, author, pySplitComma s⟩) ∧
    parse_single_quote (qf "t" "a" "a,b,c") = .ok ⟨"t", "a", ["a", "b", "c"]⟩ ∧
    pySplitComma "a,b,c" = ["a", "b", "c"] := by
  refine ⟨?_, ?_, by decide, by decide⟩
  · intro text author
    rfl
  · intro text author s hs
    unfold parse_single_quote qf
    simp [hs]

theorem c6_tag_split_witness :
    parse_single_quote (qf "t2" "a2" "a,b,c") =
      .ok ⟨"t2", "a2", pySplitComma "a,b,c"⟩ :=
  c6_tag_split.2.1 "t2" "a2" "a,b,c" (by decide)

/-- C7 counterexample: on a page whose quote fragment is missing the
`.keywords` element, `get_single_page_quotes` does NOT substitute the
empty list — the `TypeError` escapes (only `requests.RequestException`
is caught). -/
theorem c7_counterexample_parse_error_escapes :
    get_single_page_quotes netBad "https://quotes.toscrape.com" =
      (.error .typeError, ["https://quotes.toscrape.com"]) ∧
    (Except.error PyExc.typeError : Except PyExc (List Quote)) ≠ .ok [] :=
  ⟨by decide, by decide⟩

/-- C7 amended: a fetch failure is caught and yields the empty quote
list, but a parse error from a malformed fragment (missing `.keywords`
element ⇒ `TypeError`, missing `content` attribute ⇒ `KeyError`)
propagates out of `get_single_page_quotes` uncaught. -/
theorem c7_amended_parse_errors_propagate :
    (∀ (net : Net) (url : String), net url = .failure →
        get_single_page_quotes net url = (.ok [], [url])) ∧
    (∀ (net : Net) (url : String) (soup : Soup) (e : PyExc),
        net url = .success soup →
        parse_quote_list soup.quoteFragments = .error e →
        get_single_page_quotes net url = (.error e, [url])) ∧
    (∀ f : QuoteFragment, f.keywordsNode = none →
        parse_single_quote f = .error .typeError) ∧
    (∀ f : QuoteFragment, f.keywordsNode = some none →
        parse_single_quote f = .error .keyError) := by
  refine ⟨get_single_page_quotes_fetch_failure, ?_, ?_, ?_⟩
  · intro net url soup e hnet hparse
    have hcases := parse_quote_list_error_cases soup.quoteFragments e hparse
    unfold get_single_page_quotes
    rcases hcases with h | h | h <;> subst h <;>
      rw [get_single_page_quotes_except_success net url soup hnet, hparse]
  · intro f h
    unfold parse_single_quote
    rw [h]
  · intro f h
    unfold parse_single_quote
    rw [h]

theorem c7_amended_parse_errors_propagate_witness :
    get_single_page_quotes net9 "https://quotes.toscrape.com/page/2/" =
      (.ok [], ["https://quotes.toscrape.com/page/2/"]) ∧
    get_single_page_quotes netBad "https://quotes.toscrape.com" =
      (.error .typeError, ["https://quotes.toscrape.com"]) ∧
    parse_single_quote ⟨some "q1", some "A", none⟩ = .error .typeError ∧
    parse_single_quote ⟨some "q1", some "A", some none⟩ = .error .keyError :=
  ⟨c7_amended_parse_errors_propagate.1 net9 "https://quotes.toscrape.com/page/2/"
      (by decide),
   c7_amended_parse_errors_propagate.2.1 netBad "https://quotes.toscrape.com"
      badPage .typeError (by decide) (by decide),
   c7_amended_parse_errors_propagate.2.2.1 _ rfl,
   c7_amended_parse_errors_propagate.2.2.2 _ rfl⟩

/-- C8: whenever the body of `get_author_bio` raises (fetch failure or
missing details/field), the function returns the Author with all four
fields empty; and for every network and URL it returns normally — the
`except (requests.RequestException, AttributeError)` clause covers every
exception the body can raise, so no failure propagates. -/
theorem c8_author_bio_failure_all_empty :
    ∀ (net : Net) (url : String),
      (∀ e, get_author_bio_except net url = .error e →
          get_author_bio net url =
            (.ok { name := "", born_date := "", born_location := "",
                   description := "" }, [url])) ∧
      (∃ a, get_author_bio net url = (.ok a, [url])) := by
  intro net url
  exact ⟨get_author_bio_of_error net url, get_author_bio_ok net url⟩

theorem c8_author_bio_failure_all_empty_witness :
    get_author_bio netBad "https://quotes.toscrape.com/author/Albert-Einstein/" =
      (.ok { name := "", born_date := "", born_location := "",
             description := "" },
       ["https://quotes.toscrape.com/author/Albert-Einstein/"]) ∧
    get_author_bio net3 "https://quotes.toscrape.com" =
      (.ok { name := "", born_date := "", born_location := "",
             description := "" },
       ["https://quotes.toscrape.com"]) :=
  ⟨(c8_author_bio_failure_all_empty netBad
      "https://quotes.toscrape.com/author/Albert-Einstein/").1
      .requestException (by decide),
   (c8_author_bio_failure_all_empty net3 "https://quotes.toscrape.com").1
      .attributeError (by decide)⟩

/-- C9: when the fetch of the 2nd listing page fails (on both requests),
the crawl still terminates: `get_single_page_quotes` substitutes `[]`,
`get_next_page` on the dead page safely returns `None`, the loop exits,
and the program run writes a quotes CSV holding exactly page 1's quotes
(the author phase then yields one all-empty Author for the one name
seen, its bio fetch failing too). -/
theorem c9_dead_second_page :
    get_all_quotes net9 4 =
      some (.ok [⟨"q1", "Jane Austen", ["love", "life"]⟩,
                 ⟨"q2", "Jane Austen", []⟩],
            ["https://quotes.toscrape.com", "https://quotes.toscrape.com",
             "https://quotes.toscrape.com/page/2/",
             "https://quotes.toscrape.com/page/2/"]) ∧
    get_next_page net9 "https://quotes.toscrape.com/page/2/" =
      (none, ["https://quotes.toscrape.com/page/2/"]) ∧
    program_run net9 4 =
      some (.ok ([⟨"q1", "Jane Austen", ["love", "life"]⟩,
                  ⟨"q2", "Jane Austen", []⟩],
                 [⟨"", "", "", ""⟩]),
            ["https://quotes.toscrape.com", "https://quotes.toscrape.com",
             "https://quotes.toscrape.com/page/2/",
             "https://quotes.toscrape.com/page/2/",
             "https://quotes.toscrape.com", "https://quotes.toscrape.com",
             "https://quotes.toscrape.com/page/2/",
             "https://quotes.toscrape.com/page/2/",
             "https://quotes.toscrape.com/author/Jane-Austen/"]) :=
  ⟨by decide, by decide, by decide⟩

/-- C10: a full program run crawls the listing chain twice — `main` and
`write_authors_bio_to_file` each invoke `get_all_quotes` — so the run's
fetch log contains the whole crawl log twice before the bio fetches. -/
theorem c10_double_crawl :
    ∀ (net : Net) (fuel : Nat) (quotes : List Quote) (log : List String),
      get_all_quotes net fuel = some (.ok quotes, log) →
      ∃ authors bioLog,
        program_run net fuel = some (.ok (quotes, authors), log ++ (log ++ bioLog)) := by
  intro net fuel quotes log h
  obtain ⟨pairs, bioLog, heq, _, _⟩ := bio_from_spec net quotes []
  refine ⟨pairs.map Prod.snd, bioLog, ?_⟩
  unfold program_run get_authors_bio
  simp only [h, heq]

theorem c10_double_crawl_witness :
    ∃ authors bioLog,
      program_run net3 10 =
        some (.ok ([⟨"q1", "Jane Austen", ["love", "life"]⟩,
                    ⟨"q2", "Jane Austen", []⟩,
                    ⟨"q3", "Mark Twain", ["humor"]⟩,
                    ⟨"q4", "Jane Austen", ["life"]⟩,
                    ⟨"q5", "Mark Twain", []⟩], authors),
              ["https://quotes.toscrape.com", "https://quotes.toscrape.com",
               "https://quotes.toscrape.com/page/2/",
               "https://quotes.toscrape.com/page/2/",
               "https://quotes.toscrape.com/page/3/",
               "https://quotes.toscrape.com/page/3/"] ++
              (["https://quotes.toscrape.com", "https://quotes.toscrape.com",
                "https://quotes.toscrape.com/page/2/",
                "https://quotes.toscrape.com/page/2/",
                "https://quotes.toscrape.com/page/3/",
                "https://quotes.toscrape.com/page/3/"] ++ bioLog)) :=
  c10_double_crawl net3 10 _ _ (by decide)

end ScrapeQuotes
